import Mathlib

/- Verification development for the eo cloud-storage editor: a shallow
   embedding of the debounce/sync loop of watch_and_sync_file, the session
   control flow of cloud_edit and edit_file (src/main.rs), the watcher
   callback filter (src/main.rs), and parse_uri (src/uri.rs), together with
   theorems settling the specified properties. -/

/- State of the select loop in watch_and_sync_file (src/main.rs:148-150):
   last_event (line 149) and debounce_timer (line 150), the latter modelled by
   the absolute deadline of the armed sleep (armed at line 179 for
   debounce_duration from the arming instant).  The uploads field counts
   uploads issued so far and only indexes the upload actions emitted. -/
structure LoopState where
  lastEvent : Nat
  timer : Option Nat
  uploads : Nat
  deriving DecidableEq, Repr

/- Initial loop state (src/main.rs:149-150): last_event = Instant::now() at
   loop start, taken as time 0, and no timer armed. -/
def initState : LoopState := { lastEvent := 0, timer := none, uploads := 0 }

/- One iteration of the select loop resolves one ready branch
   (src/main.rs:173-201): a file-modification message from rx processed at
   time t, completion of the armed debounce timer processed at time t (at or
   after its deadline), or the stop signal. -/
inductive LoopInput where
  | ev (t : Nat)
  | fire (t : Nat)
  | stop
  deriving DecidableEq, Repr

/- Observable upload activity of the loop, indexed by upload number; the end
   action records whether that upload succeeded. -/
inductive Act where
  | uploadBegin (n : Nat)
  | uploadEnd (n : Nat) (ok : Bool)
  deriving DecidableEq, Repr

/- State update of one branch, with D the debounce_duration.  On an event:
   last_event := now, and a timer is armed only if none is armed, with
   deadline now + D (src/main.rs:176-182).  On a timer completion: the branch
   is guarded by debounce_timer.is_some() (line 189); if at least D elapsed
   since last_event an upload is issued (lines 190-194), and the timer is set
   to None either way (line 195) - it is not re-armed.  On stop: the state is
   untouched (line 199). -/
def stepState (D : Nat) (s : LoopState) : LoopInput → LoopState
  | .ev t =>
    { lastEvent := t,
      timer :=
        match s.timer with
        | none => some (t + D)
        | some d => some d,
      uploads := s.uploads }
  | .fire t =>
    match s.timer with
    | none => s
    | some _ =>
      if D ≤ t - s.lastEvent then
        { s with timer := none, uploads := s.uploads + 1 }
      else
        { s with timer := none }
  | .stop => s

/- Upload actions of one branch: only an expired-timer branch whose elapsed
   check passes uploads, and it awaits the upload inline (src/main.rs:191)
   before the loop runs again, so begin and end are adjacent; the upload
   result is only logged (line 192), never branched on. -/
def stepActs (D : Nat) (upOk : Nat → Bool) (s : LoopState) : LoopInput → List Act
  | .ev _ => []
  | .fire t =>
    match s.timer with
    | none => []
    | some _ =>
      if D ≤ t - s.lastEvent then
        [Act.uploadBegin s.uploads, Act.uploadEnd s.uploads (upOk s.uploads)]
      else []
  | .stop => []

/- The stop branch breaks out of the loop (src/main.rs:198-200). -/
def stepBreak : LoopInput → Bool
  | .stop => true
  | _ => false

/- The select loop of watch_and_sync_file (src/main.rs:172-202): process
   resolved branches in order until the stop branch breaks. -/
def runLoop (D : Nat) (upOk : Nat → Bool) : LoopState → List LoopInput → LoopState × List Act
  | s, [] => (s, [])
  | s, i :: rest =>
    if stepBreak i then (s, [])
    else
      let r := runLoop D upOk (stepState D s i) rest
      (r.1, stepActs D upOk s i ++ r.2)

/- Realizability of a branch schedule: processing times are monotone, and a
   timer completion is processed only while a timer is armed (the select
   guard, src/main.rs:189) and not before its deadline (the sleep armed at
   line 179 completes exactly at the deadline). -/
def wfFrom (D : Nat) : Nat → LoopState → List LoopInput → Bool
  | _, _, [] => true
  | _, _, .stop :: _ => true
  | now, s, .ev t :: rest =>
    decide (now ≤ t) && wfFrom D t (stepState D s (.ev t)) rest
  | now, s, .fire t :: rest =>
    match s.timer with
    | none => false
    | some d =>
      decide (now ≤ t) && decide (d ≤ t) && wfFrom D t (stepState D s (.fire t)) rest

def isBegin : Act → Bool
  | .uploadBegin _ => true
  | _ => false

/- Number of uploads started in an action list. -/
def uploadBegins (acts : List Act) : Nat := (acts.filter isBegin).length

def hasEv : List LoopInput → Bool
  | [] => false
  | .ev _ :: _ => true
  | _ :: rest => hasEv rest

def evCount : List LoopInput → Nat
  | [] => 0
  | .ev _ :: rest => evCount rest + 1
  | _ :: rest => evCount rest

/- Serialization monitor over an action list: tracks whether an upload is in
   flight and rejects a second begin before the previous end, or an end
   without a begin. -/
def serializedFrom : Bool → List Act → Bool
  | _, [] => true
  | false, .uploadBegin _ :: r => serializedFrom true r
  | false, .uploadEnd _ _ :: _ => false
  | true, .uploadEnd _ _ :: r => serializedFrom false r
  | true, .uploadBegin _ :: _ => false

/- Erase upload outcomes from an action list, keeping which uploads happen
   and in what order. -/
def stripOk : List Act → List Act :=
  List.map (fun a =>
    match a with
    | Act.uploadEnd n _ => Act.uploadEnd n true
    | a => a)

/- Session-level observable actions of cloud_edit (src/main.rs:84-126). -/
inductive SessAct where
  | download
  | spawnSyncLoop
  | launchEditor
  | sendStop
  | joinSyncLoop
  deriving DecidableEq, Repr

/- Process outcome: Ok(()) from main gives exit code 0; an Err propagated
   out of main gives exit code 1; process::exit(c) gives exit code c. -/
inductive Outcome where
  | exit0
  | err
  | exited (code : Nat)
  deriving DecidableEq, Repr

def exitCode : Outcome → Nat
  | .exit0 => 0
  | .err => 1
  | .exited c => c

/- watch_and_sync_file as a whole (src/main.rs:140-205): creating the watcher
   (lines 152-168) or starting the watch (line 170) can fail, making the task
   return Err before the loop runs; watchOk abstracts that setup fallibility.
   Otherwise the loop runs until the stop signal and the function returns
   Ok(()) unconditionally (line 204). -/
def watch_and_sync_file (watchOk : Bool) (D : Nat) (upOk : Nat → Bool)
    (inputs : List LoopInput) : Except Unit (List Act) :=
  if watchOk then Except.ok (runLoop D upOk initState inputs).2
  else Except.error ()

/- Result of edit_file (src/main.rs:128-138): spawning the editor can fail
   (the error propagates to the caller via ?); on a non-zero editor exit
   status the function prints a message and calls process::exit(1) directly
   (lines 132-135), never returning to cloud_edit; on exit status 0 it
   returns Ok(()). -/
inductive EditResult where
  | ok
  | spawnErr
  | processExit (code : Nat)
  deriving DecidableEq, Repr

/- editorStatus: none models a spawn failure, some c the editor exit code. -/
def edit_file (editorStatus : Option Nat) : EditResult :=
  match editorStatus with
  | none => .spawnErr
  | some 0 => .ok
  | some (_ + 1) => .processExit 1

/- cloud_edit (src/main.rs:84-126): download the object (line 101; on failure
   the ? returns before anything else starts), spawn the background sync task
   (line 107), run the editor in the foreground (line 117), send the stop
   signal (line 120) and join the task, propagating its error (line 123).
   When edit_file hits process::exit the process terminates at once: no stop
   signal is sent and the sync task is never joined.  When watcher setup
   failed the background task has already exited, so the stop send on the
   closed channel fails and its error propagates before the join. -/
def cloud_edit (downloadOk watchOk : Bool) (editorStatus : Option Nat) (D : Nat)
    (upOk : Nat → Bool) (inputs : List LoopInput) : List SessAct × Outcome :=
  if downloadOk then
    match edit_file editorStatus with
    | .spawnErr => ([.download, .spawnSyncLoop, .launchEditor], .err)
    | .processExit c => ([.download, .spawnSyncLoop, .launchEditor], .exited c)
    | .ok =>
      if watchOk then
        match watch_and_sync_file watchOk D upOk inputs with
        | .ok _ =>
          ([.download, .spawnSyncLoop, .launchEditor, .sendStop, .joinSyncLoop], .exit0)
        | .error _ =>
          ([.download, .spawnSyncLoop, .launchEditor, .sendStop, .joinSyncLoop], .err)
      else ([.download, .spawnSyncLoop, .launchEditor, .sendStop], .err)
  else ([.download], .err)

/- The data-change taxonomy of the notify crate, as consumed by the watcher
   callback (src/main.rs:152-168).  Renames arrive as Modify(Name(_)) and
   metadata-only changes as Modify(Metadata(_)). -/
inductive DataChange where
  | any
  | size
  | content
  | other
  deriving DecidableEq, Repr

inductive MetadataKind where
  | any
  | accessTime
  | writeTime
  | ownership
  | permissions
  | extended
  | other
  deriving DecidableEq, Repr

inductive RenameMode where
  | any
  | toMode
  | fromMode
  | both
  | other
  deriving DecidableEq, Repr

inductive ModifyKind where
  | any
  | data (c : DataChange)
  | metadata (m : MetadataKind)
  | name (r : RenameMode)
  | other
  deriving DecidableEq, Repr

inductive AccessMode where
  | any
  | execute
  | read
  | write
  | other
  deriving DecidableEq, Repr

inductive AccessKind where
  | any
  | read
  | openMode (m : AccessMode)
  | closeMode (m : AccessMode)
  | other
  deriving DecidableEq, Repr

inductive CreateKind where
  | any
  | file
  | folder
  | other
  deriving DecidableEq, Repr

inductive RemoveKind where
  | any
  | file
  | folder
  | other
  deriving DecidableEq, Repr

inductive EventKind where
  | any
  | access (a : AccessKind)
  | create (c : CreateKind)
  | modify (m : ModifyKind)
  | remove (r : RemoveKind)
  | other
  deriving DecidableEq, Repr

/- A notify Event as matched by the callback; only the kind field is
   inspected (the paths and attrs are matched with ..). -/
structure NotifyEvent where
  kind : EventKind
  deriving DecidableEq, Repr

/- The watcher callback (src/main.rs:153-166): on Ok(Event with kind
   Modify(_)) it sends () on the channel; every other Ok event is ignored and
   errors are only printed.  The returned value is the forwarded message, if
   any. -/
def watcherForward (res : Except String NotifyEvent) : Option Unit :=
  match res with
  | .ok e =>
    match e.kind with
    | .modify _ => some ()
    | _ => none
  | .error _ => none

/- Rust str::split_once over a character sequence: split at the first
   occurrence of c, returning the parts before and after it. -/
def splitOnce : List Char → Char → Option (List Char × List Char)
  | [], _ => none
  | x :: xs, c =>
    if x = c then some ([], xs)
    else
      match splitOnce xs c with
      | some (a, b) => some (x :: a, b)
      | none => none

/- Rust str::strip of a leading pattern p from s, returning the remainder
   when p leads s. -/
def stripScheme : List Char → List Char → Option (List Char)
  | [], s => some s
  | _ :: _, [] => none
  | p :: ps, x :: xs => if x = p then stripScheme ps xs else none

def s3Scheme : List Char := ['s', '3', ':', '/', '/']

def gsScheme : List Char := ['g', 's', ':', '/', '/']

/- The strip of the s3 scheme or else the gs scheme (src/uri.rs:6-9). -/
def schemeRemainder (u : List Char) : Option (List Char) :=
  match stripScheme s3Scheme u with
  | some r => some r
  | none => stripScheme gsScheme u

/- parse_uri (src/uri.rs:4-19): None input gives Ok(None); a string led by
   s3:// or gs:// whose remainder splits at a first slash gives
   Ok(Some((bucket, key))); every other string gives Err. -/
def parse_uri (uri : Option (List Char)) : Except String (Option (List Char × List Char)) :=
  match uri with
  | none => Except.ok none
  | some uriStr =>
    match schemeRemainder uriStr with
    | some stripped =>
      match splitOnce stripped '/' with
      | some (bucket, key) => Except.ok (some (bucket, key))
      | none =>
        Except.error "Invalid cloud storage URI format. Expected s3://bucket/key or gs://bucket/key"
    | none =>
      Except.error "Invalid cloud storage URI format. Expected s3://bucket/key or gs://bucket/key"

inductive Backend where
  | s3
  | gcs
  deriving DecidableEq, Repr

/- Storage-client selection in main (src/main.rs:66-75): decided by the
   storage flag alone; the URI scheme plays no part. -/
def selectBackend (storage : List Char) : Except String Backend :=
  if storage = "s3".toList then Except.ok Backend.s3
  else if storage = "gcs".toList then Except.ok Backend.gcs
  else Except.error "Unsupported storage provider"

/- main's resolution order (src/main.rs:62-79): parse the URI first, falling
   back to the bucket/key flags when it is absent, then select the backend
   from the storage flag; the parsed scheme is never compared against the
   selected backend. -/
def mainResolve (storage : List Char) (uri : Option (List Char))
    (fallback : List Char × List Char) : Except String (Backend × List Char × List Char) :=
  match parse_uri uri with
  | Except.error e => Except.error e
  | Except.ok parsed =>
    let bk := parsed.getD fallback
    match selectBackend storage with
    | Except.error e => Except.error e
    | Except.ok b => Except.ok (b, bk.1, bk.2)

/- Helper: from a state with no armed timer, a schedule containing no events
   can never upload: only an event arms a timer, and only an armed timer can
   upload. -/
theorem runLoop_no_ev_no_upload (D : Nat) (upOk : Nat → Bool) :
    ∀ (inputs : List LoopInput) (s : LoopState), s.timer = none → hasEv inputs = false →
      uploadBegins (runLoop D upOk s inputs).2 = 0 := by
  intro inputs
  induction inputs with
  | nil => intro s hs h; simp [runLoop, uploadBegins]
  | cons i rest ih =>
    intro s hs h
    cases i with
    | ev t => simp [hasEv] at h
    | fire t =>
      have hrest : hasEv rest = false := by simpa [hasEv] using h
      have hstep : stepState D s (.fire t) = s := by simp [stepState, hs]
      have hacts : stepActs D upOk s (.fire t) = [] := by simp [stepActs, hs]
      simp only [runLoop, stepBreak, hstep, hacts, List.nil_append]
      exact ih s hs hrest
    | stop => simp [runLoop, stepBreak, uploadBegins]

/- The two-event burst used against the debounce-coalescing property: events
   at times 0 and 1 with debounce_duration 2, the armed timer completing at
   its deadline 2. -/
def c1Burst : List LoopInput := [.ev 0, .ev 1, .fire 2]

/-- Claim C1: for every burst of N >= 1 events each arriving strictly within
debounce_duration of the previous, exactly one flush is performed, no earlier
than debounce_duration after the last event.  This theorem shows the claim
fails on the code: with debounce_duration 2 and events at times 0 and 1
(spacing 1 < 2), the realizable schedule c1Burst arms the timer only at the
first event; when it completes at time 2 the elapsed check fails (1 < 2), the
timer is cleared without re-arming, and no later schedule without further
events can ever upload - zero flushes instead of exactly one. -/
theorem c1_burst_flush_dropped :
    wfFrom 2 0 initState c1Burst = true ∧
    ∀ (upOk : Nat → Bool) (rest : List LoopInput), hasEv rest = false →
      uploadBegins (runLoop 2 upOk initState (c1Burst ++ rest)).2 = 0 := by
  constructor
  · decide
  · intro upOk rest h
    have h1 : runLoop 2 upOk initState (c1Burst ++ rest)
        = runLoop 2 upOk { lastEvent := 1, timer := none, uploads := 0 } rest := by
      simp [c1Burst, runLoop, stepBreak, stepState, stepActs, initState]
    rw [h1]
    exact runLoop_no_ev_no_upload 2 upOk rest _ rfl h

theorem c1_burst_flush_dropped_witness :
    hasEv [LoopInput.stop] = false ∧
    uploadBegins (runLoop 2 (fun _ => true) initState (c1Burst ++ [LoopInput.stop])).2 = 0 :=
  ⟨by decide, c1_burst_flush_dropped.2 (fun _ => true) [LoopInput.stop] (by decide)⟩

/- The stream used against the debounce-fairness property: events at times
   0, 2, 4, 6 with debounce_duration 3, each armed timer completing at its
   deadline. -/
def c2Stream : List LoopInput := [.ev 0, .ev 2, .fire 3, .ev 4, .ev 6, .fire 7]

/-- Claim C2: once events stop arriving, a flush is emitted within
debounce_duration of the last event; in particular a timer that completes
after a newer event is re-armed rather than the pending edit being dropped.
This theorem shows the claim fails on the code: with debounce_duration 3 and
events at times 0, 2, 4, 6 (spacing 2 < 3), both timer completions (at times
3 and 7) see a newer event, upload nothing, and clear the timer without
re-arming; after the last completion no schedule without further events can
ever upload, so the pending edit at time 6 is dropped forever. -/
theorem c2_fairness_violated :
    wfFrom 3 0 initState c2Stream = true ∧
    ∀ (upOk : Nat → Bool) (rest : List LoopInput), hasEv rest = false →
      uploadBegins (runLoop 3 upOk initState (c2Stream ++ rest)).2 = 0 := by
  constructor
  · decide
  · intro upOk rest h
    have h1 : runLoop 3 upOk initState (c2Stream ++ rest)
        = runLoop 3 upOk { lastEvent := 6, timer := none, uploads := 0 } rest := by
      simp [c2Stream, runLoop, stepBreak, stepState, stepActs, initState]
    rw [h1]
    exact runLoop_no_ev_no_upload 3 upOk rest _ rfl h

theorem c2_fairness_violated_witness :
    hasEv [LoopInput.stop] = false ∧
    uploadBegins (runLoop 3 (fun _ => true) initState (c2Stream ++ [LoopInput.stop])).2 = 0 :=
  ⟨by decide, c2_fairness_violated.2 (fun _ => true) [LoopInput.stop] (by decide)⟩

/-- Claim C4, counterexample: with debounce_duration 5, an event at time 0
arms a debounce window (deadline 5); the stop signal arrives while it is
armed and the loop breaks at once with no upload - the pending flush is
dropped, contradicting the claim that the last edit is uploaded before the
loop acknowledges stop. -/
theorem c4_pending_flush_dropped_cex :
    wfFrom 5 0 initState [LoopInput.ev 0, LoopInput.stop] = true ∧
    (stepState 5 initState (LoopInput.ev 0)).timer = some 5 ∧
    runLoop 5 (fun _ => true) initState [LoopInput.ev 0, LoopInput.stop]
      = ({ lastEvent := 0, timer := some 5, uploads := 0 }, []) := by
  decide

/-- Claim C4, amended: when the stop signal is selected, the loop in
watch_and_sync_file breaks immediately from any state - including one with an
armed, not yet fired debounce window - performing no final flush and emitting
no upload action; a pending flush at the moment of cancellation is dropped. -/
theorem c4_stop_breaks_immediately (D : Nat) (upOk : Nat → Bool) (s : LoopState)
    (rest : List LoopInput) :
    runLoop D upOk s (LoopInput.stop :: rest) = (s, []) := by
  simp [runLoop, stepBreak]

/-- Claim C5: within one session uploads are serialized - the loop awaits
each upload inline before selecting the next branch, so in the emitted action
list an upload never begins while another is in flight: for any two flushes
f1 (earlier) and f2 (later), f1's upload end precedes f2's upload begin.
Holds for every debounce duration, upload-outcome oracle, start state and
branch schedule. -/
theorem c5_uploads_serialized (D : Nat) (upOk : Nat → Bool) :
    ∀ (inputs : List LoopInput) (s : LoopState),
      serializedFrom false (runLoop D upOk s inputs).2 = true := by
  intro inputs
  induction inputs with
  | nil => intro s; simp [runLoop, serializedFrom]
  | cons i rest ih =>
    intro s
    cases i with
    | ev t =>
      simp only [runLoop, stepBreak, stepActs, List.nil_append]
      exact ih _
    | fire t =>
      simp only [runLoop, stepBreak]
      cases hs : s.timer with
      | none =>
        simp only [stepActs, hs, List.nil_append]
        exact ih _
      | some d =>
        by_cases hD : D ≤ t - s.lastEvent
        · simp only [stepActs, hs, if_pos hD, List.cons_append, List.nil_append,
            serializedFrom]
          exact ih _
        · simp only [stepActs, hs, if_neg hD, List.nil_append]
          exact ih _
    | stop => simp [runLoop, stepBreak, serializedFrom]

/-- Claim C3, counterexample: a session whose download and watcher setup
succeed and whose editor exits with status 1 terminates through
process::exit(1) inside edit_file - the emitted session trace contains
neither the stop signal nor the join of the sync loop, contradicting the
claim that for every editor exit code the stop signal is sent and the sync
loop is awaited before the process returns. -/
theorem c3_nonzero_exit_skips_shutdown_cex :
    cloud_edit true true (some 1) 500 (fun _ => true) []
      = ([SessAct.download, SessAct.spawnSyncLoop, SessAct.launchEditor], Outcome.exited 1) ∧
    SessAct.sendStop ∉ (cloud_edit true true (some 1) 500 (fun _ => true) []).1 ∧
    SessAct.joinSyncLoop ∉ (cloud_edit true true (some 1) 500 (fun _ => true) []).1 := by
  decide

/-- Claim C3, amended: when the editor exits with status 0, cloud_edit sends
the stop signal and joins the background sync loop before returning, and the
process exit code is 0; when the editor exits non-zero, edit_file reports the
failure and calls process::exit(1) immediately, so the process terminates
with exit code 1 without sending the stop signal or joining the sync loop. -/
theorem c3_shutdown_only_on_zero_exit (D : Nat) (upOk : Nat → Bool)
    (inputs : List LoopInput) (n : Nat) :
    cloud_edit true true (some 0) D upOk inputs
      = ([SessAct.download, SessAct.spawnSyncLoop, SessAct.launchEditor,
          SessAct.sendStop, SessAct.joinSyncLoop], Outcome.exit0) ∧
    cloud_edit true true (some (n + 1)) D upOk inputs
      = ([SessAct.download, SessAct.spawnSyncLoop, SessAct.launchEditor], Outcome.exited 1) ∧
    SessAct.sendStop ∉ (cloud_edit true true (some (n + 1)) D upOk inputs).1 ∧
    exitCode (cloud_edit true true (some (n + 1)) D upOk inputs).2 ≠ 0 := by
  refine ⟨?_, ?_, ?_, ?_⟩ <;>
    simp [cloud_edit, edit_file, watch_and_sync_file, exitCode]

/-- Claim C6: when the initial download fails, cloud_edit returns before the
sync task is spawned or the editor is launched - the session trace is just
the failed download - and the propagated error makes the process exit
non-zero, for every watcher outcome, editor status, debounce duration,
upload oracle and schedule. -/
theorem c6_download_failure_fatal (watchOk : Bool) (editorStatus : Option Nat)
    (D : Nat) (upOk : Nat → Bool) (inputs : List LoopInput) :
    cloud_edit false watchOk editorStatus D upOk inputs = ([SessAct.download], Outcome.err) ∧
    SessAct.launchEditor ∉ (cloud_edit false watchOk editorStatus D upOk inputs).1 ∧
    SessAct.spawnSyncLoop ∉ (cloud_edit false watchOk editorStatus D upOk inputs).1 ∧
    exitCode (cloud_edit false watchOk editorStatus D upOk inputs).2 ≠ 0 := by
  refine ⟨rfl, ?_, ?_, ?_⟩ <;> simp [cloud_edit, exitCode]

/-- Claim C7: an upload failure during the editing phase never terminates the
session.  First, the loop state evolution and the sequence of flushes are
identical under every upload-outcome oracle (the result of upload_file is
only logged), so the loop keeps processing subsequent events after a failed
upload.  Second, once watcher setup has succeeded, watch_and_sync_file
returns Ok for every oracle.  Third, when the editor exits with status 0 the
process exit code is 0 regardless of mid-session upload failures. -/
theorem c7_upload_failures_nonfatal (D : Nat) (upOk upOk2 : Nat → Bool)
    (s : LoopState) (inputs : List LoopInput) :
    (runLoop D upOk s inputs).1 = (runLoop D upOk2 s inputs).1 ∧
    stripOk (runLoop D upOk s inputs).2 = stripOk (runLoop D upOk2 s inputs).2 ∧
    watch_and_sync_file true D upOk inputs = Except.ok (runLoop D upOk initState inputs).2 ∧
    (cloud_edit true true (some 0) D upOk inputs).2 = Outcome.exit0 := by
  refine ⟨?_, ?_, rfl, ?_⟩
  · induction inputs generalizing s with
    | nil => rfl
    | cons i rest ih =>
      by_cases hb : stepBreak i = true
      · simp [runLoop, hb]
      · simp only [runLoop, hb, if_false, Bool.false_eq_true]
        exact ih _
  · induction inputs generalizing s with
    | nil => rfl
    | cons i rest ih =>
      by_cases hb : stepBreak i = true
      · simp [runLoop, hb]
      · simp only [runLoop, hb, if_false, Bool.false_eq_true]
        have hacts : stripOk (stepActs D upOk s i) = stripOk (stepActs D upOk2 s i) := by
          cases i with
          | ev t => rfl
          | fire t =>
            cases hs : s.timer with
            | none => simp [stepActs, hs]
            | some d =>
              by_cases hD : D ≤ t - s.lastEvent
              · simp [stepActs, hs, hD, stripOk]
              · simp [stepActs, hs, hD, stripOk]
          | stop => rfl
        simp only [stripOk, List.map_append] at *
        rw [hacts, ih]
  · simp [cloud_edit, edit_file, watch_and_sync_file]

/-- Claim C8, counterexample: with debounce_duration 0, two events both
arriving at time 0 - the second processed while the zero-length timer is
already armed - are followed by the timer completion, which uploads once: two
events, one flush, so the claimed 1:1 correspondence between events and
flushes fails. -/
theorem c8_not_one_to_one_cex :
    wfFrom 0 0 initState [LoopInput.ev 0, LoopInput.ev 0, LoopInput.fire 0, LoopInput.stop]
      = true ∧
    evCount [LoopInput.ev 0, LoopInput.ev 0, LoopInput.fire 0, LoopInput.stop] = 2 ∧
    uploadBegins (runLoop 0 (fun _ => true) initState
      [LoopInput.ev 0, LoopInput.ev 0, LoopInput.fire 0, LoopInput.stop]).2 = 1 := by
  decide

/-- Claim C8, amended: with debounce_duration = 0 every processed timer
completion performs an upload (the elapsed check 0 <= t - last_event always
passes), so each armed debounce window yields exactly one flush and no
window's flush is lost to the elapsed check; but events arriving while the
zero-length window is still armed are coalesced into that window's single
flush, so the event-to-flush correspondence is per armed window, not 1:1 per
event. -/
theorem c8_zero_duration_every_expiry_uploads (upOk : Nat → Bool) (s : LoopState)
    (t d : Nat) (h : s.timer = some d) :
    stepActs 0 upOk s (LoopInput.fire t)
      = [Act.uploadBegin s.uploads, Act.uploadEnd s.uploads (upOk s.uploads)] ∧
    stepState 0 s (LoopInput.fire t)
      = { s with timer := none, uploads := s.uploads + 1 } := by
  constructor
  · simp [stepActs, h]
  · simp [stepState, h]

theorem c8_zero_duration_every_expiry_uploads_witness :
    ({ lastEvent := 0, timer := some 0, uploads := 0 } : LoopState).timer = some 0 ∧
    stepActs 0 (fun _ => true) { lastEvent := 0, timer := some 0, uploads := 0 }
        (LoopInput.fire 0)
      = [Act.uploadBegin 0, Act.uploadEnd 0 true] :=
  ⟨rfl, (c8_zero_duration_every_expiry_uploads (fun _ => true)
    { lastEvent := 0, timer := some 0, uploads := 0 } 0 0 rfl).1⟩

/-- Claim C9, counterexample: the callback matches every Modify(_) kind, so a
metadata-only notification Modify(Metadata(Any)) and a rename notification
Modify(Name(Any)) are both forwarded as change events, contradicting the
claim that metadata-only and rename notifications are never forwarded (a
create notification, by contrast, is indeed dropped). -/
theorem c9_metadata_rename_forwarded_cex :
    watcherForward (Except.ok ⟨EventKind.modify (ModifyKind.metadata MetadataKind.any)⟩)
      = some () ∧
    watcherForward (Except.ok ⟨EventKind.modify (ModifyKind.name RenameMode.any)⟩)
      = some () ∧
    watcherForward (Except.ok ⟨EventKind.create CreateKind.file⟩) = none :=
  ⟨rfl, rfl, rfl⟩

/-- Claim C9, amended: a ChangeEvent is forwarded to the debounce loop if and
only if the notification kind matches Modify(_) - which covers data changes
but also metadata-only changes Modify(Metadata(_)) and renames
Modify(Name(_)); create, remove, access, any and other kinds, and watcher
errors, are never forwarded. -/
theorem c9_forward_iff_modify :
    (∀ m : ModifyKind, watcherForward (Except.ok ⟨EventKind.modify m⟩) = some ()) ∧
    (∀ c : CreateKind, watcherForward (Except.ok ⟨EventKind.create c⟩) = none) ∧
    (∀ r : RemoveKind, watcherForward (Except.ok ⟨EventKind.remove r⟩) = none) ∧
    (∀ a : AccessKind, watcherForward (Except.ok ⟨EventKind.access a⟩) = none) ∧
    watcherForward (Except.ok ⟨EventKind.any⟩) = none ∧
    watcherForward (Except.ok ⟨EventKind.other⟩) = none ∧
    (∀ msg : String, watcherForward (Except.error msg) = none) :=
  ⟨fun _ => rfl, fun _ => rfl, fun _ => rfl, fun _ => rfl, rfl, rfl, fun _ => rfl⟩

/- Helper: stripping a pattern off that very pattern followed by a remainder
   yields the remainder. -/
theorem stripScheme_append (p s : List Char) : stripScheme p (p ++ s) = some s := by
  induction p with
  | nil => rfl
  | cons x xs ih => simp [stripScheme, ih]

/- Helper: a successful strip means the input is the pattern followed by the
   remainder. -/
theorem stripScheme_eq_some : ∀ {p s r : List Char}, stripScheme p s = some r → s = p ++ r := by
  intro p
  induction p with
  | nil =>
    intro s r h
    simp [stripScheme] at h
    simp [h]
  | cons x xs ih =>
    intro s r h
    cases s with
    | nil => simp [stripScheme] at h
    | cons y ys =>
      by_cases hy : y = x
      · subst hy
        simp only [stripScheme, if_pos rfl] at h
        simp [ih h]
      · simp [stripScheme, hy] at h

/- Helper: splitting a list at a character not occurring in its first part
   returns that first part and the tail after the character. -/
theorem splitOnce_append (c : Char) (b : List Char) :
    ∀ (a : List Char), c ∉ a → splitOnce (a ++ c :: b) c = some (a, b) := by
  intro a
  induction a with
  | nil => intro h; simp [splitOnce]
  | cons x xs ih =>
    intro h
    have hx : ¬ x = c := fun hc => h (by simp [hc])
    have hxs : c ∉ xs := fun hc => h (List.mem_cons_of_mem _ hc)
    simp [splitOnce, hx, ih hxs]

/- Helper: a successful split means the input is the first part, the split
   character, then the second part, with the character absent from the first
   part. -/
theorem splitOnce_eq_some (c : Char) :
    ∀ {s a b : List Char}, splitOnce s c = some (a, b) → s = a ++ c :: b ∧ c ∉ a := by
  intro s
  induction s with
  | nil => intro a b h; simp [splitOnce] at h
  | cons x xs ih =>
    intro a b h
    by_cases hx : x = c
    · subst hx
      simp [splitOnce] at h
      obtain ⟨ha, hb⟩ := h
      subst ha
      subst hb
      simp
    · rw [splitOnce, if_neg hx] at h
      cases hsp : splitOnce xs c with
      | none => rw [hsp] at h; simp at h
      | some p =>
        obtain ⟨a1, b1⟩ := p
        rw [hsp] at h
        simp only [Option.some.injEq, Prod.mk.injEq] at h
        obtain ⟨ha, hb⟩ := h
        subst hb
        subst ha
        obtain ⟨hxs, hnm⟩ := ih hsp
        subst hxs
        constructor
        · simp
        · intro hc
          rcases List.mem_cons.mp hc with hc | hc
          · exact hx hc.symm
          · exact hnm hc

/- Helper: the scheme strip of src/uri.rs:6-9 succeeds exactly on an s3 or gs
   scheme followed by the remainder. -/
theorem schemeRemainder_eq_some : ∀ {u r : List Char}, schemeRemainder u = some r →
    u = s3Scheme ++ r ∨ u = gsScheme ++ r := by
  intro u r h
  unfold schemeRemainder at h
  cases hs : stripScheme s3Scheme u with
  | some r2 =>
    rw [hs] at h
    simp only [Option.some.injEq] at h
    subst h
    exact Or.inl (stripScheme_eq_some hs)
  | none =>
    rw [hs] at h
    exact Or.inr (stripScheme_eq_some h)

theorem schemeRemainder_s3 (x : List Char) : schemeRemainder (s3Scheme ++ x) = some x := by
  simp [schemeRemainder, stripScheme_append]

theorem schemeRemainder_gs (x : List Char) : schemeRemainder (gsScheme ++ x) = some x := by
  have h1 : stripScheme s3Scheme (gsScheme ++ x) = none := rfl
  simp [schemeRemainder, h1, stripScheme_append]

/- Helper: parse_uri never returns Ok(None) on a present URI. -/
theorem parse_uri_some_ne_ok_none (s : List Char) :
    parse_uri (some s) ≠ Except.ok none := by
  intro h
  simp only [parse_uri] at h
  split at h
  · split at h
    · simp at h
    · simp at h
  · simp at h

/- Helper: inversion of a successful parse: the URI is an s3 or gs scheme, a
   slash-free bucket, a slash, and the key. -/
theorem parse_uri_ok_some {s b k : List Char}
    (h : parse_uri (some s) = Except.ok (some (b, k))) :
    '/' ∉ b ∧ (s = s3Scheme ++ b ++ '/' :: k ∨ s = gsScheme ++ b ++ '/' :: k) := by
  simp only [parse_uri] at h
  split at h
  · rename_i stripped h1
    split at h
    · rename_i a1 b1 h2
      simp only [Except.ok.injEq, Option.some.injEq, Prod.mk.injEq] at h
      obtain ⟨ha, hbb⟩ := h
      subst ha
      subst hbb
      obtain ⟨hs, hnm⟩ := splitOnce_eq_some '/' h2
      subst hs
      exact ⟨hnm, by simpa [List.append_assoc] using schemeRemainder_eq_some h1⟩
    · simp at h
  · simp at h

/-- Claim C10: parse_uri returns Ok(None) exactly when its input is None; a
present string led by s3:// or gs:// and consisting of a slash-free bucket, a
slash, and an arbitrary key (which may be empty or contain further slashes)
parses to Ok(Some((bucket, key))) with bucket the text before the first slash
after the scheme and key everything after it; every other present string is
an error; and main never checks the scheme against the selected backend - a
gs:// URI is accepted with the s3 backend and an s3:// URI with the gcs
backend. -/
theorem c10_parse_uri_characterization :
    parse_uri none = Except.ok none ∧
    (∀ s : List Char, parse_uri (some s) ≠ Except.ok none) ∧
    (∀ b k : List Char, '/' ∉ b →
      parse_uri (some (s3Scheme ++ b ++ '/' :: k)) = Except.ok (some (b, k)) ∧
      parse_uri (some (gsScheme ++ b ++ '/' :: k)) = Except.ok (some (b, k))) ∧
    (∀ s b k : List Char, parse_uri (some s) = Except.ok (some (b, k)) →
      '/' ∉ b ∧ (s = s3Scheme ++ b ++ '/' :: k ∨ s = gsScheme ++ b ++ '/' :: k)) ∧
    (∀ s : List Char,
      (¬ ∃ b k : List Char, '/' ∉ b ∧
        (s = s3Scheme ++ b ++ '/' :: k ∨ s = gsScheme ++ b ++ '/' :: k)) →
      ∃ m, parse_uri (some s) = Except.error m) ∧
    (∀ fb : List Char × List Char,
      mainResolve ("s3".toList) (some ("gs://b/k".toList)) fb
        = Except.ok (Backend.s3, "b".toList, "k".toList) ∧
      mainResolve ("gcs".toList) (some ("s3://b/k".toList)) fb
        = Except.ok (Backend.gcs, "b".toList, "k".toList)) := by
  refine ⟨rfl, parse_uri_some_ne_ok_none, ?_, fun s b k h => parse_uri_ok_some h, ?_, ?_⟩
  · intro b k hb
    constructor
    · rw [List.append_assoc]
      simp [parse_uri, schemeRemainder_s3, splitOnce_append '/' k b hb]
    · rw [List.append_assoc]
      simp [parse_uri, schemeRemainder_gs, splitOnce_append '/' k b hb]
  · intro s hno
    cases hp : parse_uri (some s) with
    | error m => exact ⟨m, rfl⟩
    | ok o =>
      cases o with
      | none => exact absurd hp (parse_uri_some_ne_ok_none s)
      | some p =>
        obtain ⟨b, k⟩ := p
        obtain ⟨hnm, hor⟩ := parse_uri_ok_some hp
        exact absurd ⟨b, k, hnm, hor⟩ hno
  · intro fb
    exact ⟨rfl, rfl⟩

theorem c10_parse_uri_characterization_witness :
    ('/' ∉ "bucket".toList) ∧
    parse_uri (some (s3Scheme ++ "bucket".toList ++ '/' :: "a/b".toList))
      = Except.ok (some ("bucket".toList, "a/b".toList)) :=
  ⟨by decide,
    (c10_parse_uri_characterization.2.2.1 "bucket".toList "a/b".toList (by decide)).1⟩
